import Mathlib

/-!
Shallow embedding of the apollo-ecs runtime core (src/world.rs, src/query.rs,
src/entities.rs).  `TypeId` is modelled as `Nat`; a type-erased boxed component
value is modelled as a `Nat` payload.  Rust operations that can panic
(out-of-bounds indexed assignment or indexing, `unwrap`) return `Option`, with
`none` standing for the panic.
-/

/-- An entity's ID (`pub type Entity = usize` in lib.rs). -/
abbrev Entity := Nat

/-- `pub type Component = (TypeId, *mut Any)`: a type tag paired with the
erased payload (modelled as a `Nat` value). -/
abbrev Component := Nat × Nat

/-- `pub type Components = Vec<Component>`: one entity's component store. -/
abbrev Components := List Component

/-- The scan loop of `IsCondition::test` and `World::has_component`:
first-match short-circuit over the store's type tags. -/
def hasTag (t : Nat) : Components → Bool
  | [] => false
  | p :: rest => if p.1 = t then true else hasTag t rest

/-- The scan loop of `IsNotCondition::test`: returns `false` on the first
matching tag, `true` if the scan finishes. -/
def noTag (t : Nat) : Components → Bool
  | [] => true
  | p :: rest => if p.1 = t then false else noTag t rest

/-- The lookup loop of `World::get_component` and `EntityEditor::get`:
the value of the first component whose tag matches. -/
def findComp (t : Nat) : Components → Option Nat
  | [] => none
  | p :: rest => if p.1 = t then some p.2 else findComp t rest

mutual
/-- The condition trees of query.rs: `AnyCondition`, `IsCondition`,
`IsNotCondition`, `AndCondition`, `OrCondition`, `NotCondition`, plus a
finalized `Query` used as a condition (`impl Condition for Query`). -/
inductive Cond where
  | any : Cond
  | is (ty : Nat) : Cond
  | isNot (ty : Nat) : Cond
  | and (left : Cond) (right : Cond) : Cond
  | or (left : Cond) (right : Cond) : Cond
  | not (cond : Cond) : Cond
  | ofQuery (q : Query) : Cond

/-- `struct Query { conditions: Vec<Box<Condition>> }`. -/
inductive Query where
  | mk (conditions : CondList) : Query

/-- The `Vec<Box<Condition>>` held by a `Query` / `QueryBuilder`. -/
inductive CondList where
  | nil : CondList
  | cons (head : Cond) (tail : CondList) : CondList
end

mutual
/-- `Condition::test` for each condition node of query.rs. -/
def Cond.test : Cond → Components → Bool
  | .any, _ => true
  | .is t, s => hasTag t s
  | .isNot t, s => noTag t s
  | .and l r, s => l.test s && r.test s
  | .or l r, s => l.test s || r.test s
  | .not c, s => !(c.test s)
  | .ofQuery q, s => Query.test q s

/-- `impl Condition for Query`: every condition in the list must hold. -/
def Query.test : Query → Components → Bool
  | .mk cs, s => CondList.testAll cs s

/-- The loop body of `Query::test`: return `false` at the first failing
condition, `true` if the scan finishes. -/
def CondList.testAll : CondList → Components → Bool
  | .nil, _ => true
  | .cons c cs, s => if c.test s then CondList.testAll cs s else false
end

/-- Append a condition at the tail, as `Vec::push` does. -/
def CondList.push : CondList → Cond → CondList
  | .nil, c => .cons c .nil
  | .cons h t, c => .cons h (t.push c)

/-- `CondList` viewed as a Lean list, for stating membership facts. -/
def CondList.toList : CondList → List Cond
  | .nil => []
  | .cons c cs => c :: cs.toList

/-- `struct QueryBuilder { conditions: Vec<Box<Condition>> }`. -/
structure QueryBuilder where
  conditions : CondList

/-- `QueryBuilder::new`. -/
def QueryBuilder.new : QueryBuilder := ⟨.nil⟩

/-- `QueryBuilder::build`. -/
def QueryBuilder.build (b : QueryBuilder) : Query := .mk b.conditions

/-- `impl Into<Box<Condition>> for QueryBuilder`: build and box. -/
def QueryBuilder.toCond (b : QueryBuilder) : Cond := .ofQuery b.build

/-- `QueryBuilder::any`: push an `AnyCondition`. -/
def QueryBuilder.anyC (b : QueryBuilder) : QueryBuilder :=
  ⟨b.conditions.push .any⟩

/-- `QueryBuilder::with::<T>`: push an `IsCondition`. -/
def QueryBuilder.withC (b : QueryBuilder) (t : Nat) : QueryBuilder :=
  ⟨b.conditions.push (.is t)⟩

/-- `QueryBuilder::without::<T>`: push an `IsNotCondition`. -/
def QueryBuilder.without (b : QueryBuilder) (t : Nat) : QueryBuilder :=
  ⟨b.conditions.push (.isNot t)⟩

/-- `QueryBuilder::and`: a fresh builder holding one `AndCondition` whose
left side is the built previous builder. -/
def QueryBuilder.and (b : QueryBuilder) (c : Cond) : QueryBuilder :=
  ⟨.cons (.and (.ofQuery b.build) c) .nil⟩

/-- `QueryBuilder::and_not`: like `and` with the right side wrapped in `Not`. -/
def QueryBuilder.and_not (b : QueryBuilder) (c : Cond) : QueryBuilder :=
  ⟨.cons (.and (.ofQuery b.build) (.not c)) .nil⟩

/-- `QueryBuilder::or`: a fresh builder holding one `OrCondition` whose
left side is the built previous builder. -/
def QueryBuilder.or (b : QueryBuilder) (c : Cond) : QueryBuilder :=
  ⟨.cons (.or (.ofQuery b.build) c) .nil⟩

/-- `QueryBuilder::or_not`: like `or` with the right side wrapped in `Not`. -/
def QueryBuilder.or_not (b : QueryBuilder) (c : Cond) : QueryBuilder :=
  ⟨.cons (.or (.ofQuery b.build) (.not c)) .nil⟩

/-- `Matchers::with::<T>`. -/
def Matchers.withC (t : Nat) : QueryBuilder := QueryBuilder.new.withC t

/-- `Matchers::without::<T>`. -/
def Matchers.without (t : Nat) : QueryBuilder := QueryBuilder.new.without t

/-- `Matchers::and`. -/
def Matchers.and (c : Cond) : QueryBuilder := QueryBuilder.new.and c

/-- `Matchers::or`. -/
def Matchers.or (c : Cond) : QueryBuilder := QueryBuilder.new.or c

/-- One registered iterative system: its compiled query (`T::get_query()`) and
its `process(&mut self, ent, world: &World)` body.  Through the shared `&World`
reference a body can read the stores, the validity flags and the dead queue,
and can mutate only the interior-mutable parts: the per-entity component
stores (via `get_component`'s `&mut` or `add_component`) and the dead queue
(via `remove_entity`).  It is therefore modelled as a function from the entity
and the readable view to new stores and a new dead queue. -/
structure IterSystem where
  query : Query
  run : Entity → List Components → List Bool → List Entity →
    List Components × List Entity

/-- `struct World` of world.rs: per-entity component stores, validity flags,
registered systems, the free list and the dead queue (both FIFO: head is the
front). -/
structure World where
  entities : List Components
  valid_ents : List Bool
  iterative_systems : List IterSystem
  free_ents : List Entity
  dead_ents : List Entity

/-- `World::with_capacity(capacity)`: empty entity vector, `valid_ents`
initialized to `vec![false; capacity]` (a fixed-length array of `false`). -/
def World.with_capacity (capacity : Nat) : World :=
  { entities := []
    valid_ents := List.replicate capacity false
    iterative_systems := []
    free_ents := []
    dead_ents := [] }

/-- `World::register_iterative_system`: push the (system, query) pair. -/
def World.register_iterative_system (w : World) (s : IterSystem) : World :=
  { w with iterative_systems := w.iterative_systems ++ [s] }

/-- `World::create_entity`.  If the free list is non-empty: pop its front,
truncate that slot's store to length 0, then execute
`self.valid_ents[ent] = false` (the source writes `false` here).  Otherwise:
append a fresh empty slot and execute `self.valid_ents[ent] = true`.  Rust's
indexed assignment panics when the index is out of bounds, and
`entities.get_mut(ent).unwrap()` panics when `ent` is out of range; `none`
models those panics. -/
def World.create_entity (w : World) : Option (World × Entity) :=
  match w.free_ents with
  | ent :: rest =>
    match w.entities.get? ent with
    | some _ =>
      if ent < w.valid_ents.length then
        some ({ w with entities := w.entities.set ent []
                       valid_ents := w.valid_ents.set ent false
                       free_ents := rest }, ent)
      else none
    | none => none
  | [] =>
    let ent := w.entities.length
    if ent < w.valid_ents.length then
      some ({ w with entities := w.entities ++ [[]]
                     valid_ents := w.valid_ents.set ent true }, ent)
    else none

/-- `World::drop_entity`: if `ent` is in range, drop every component value of
the slot (a memory effect with no counterpart on this model's data; the store
itself is *not* truncated), execute `self.valid_ents[ent] = false` (panic when
out of bounds, modelled by `none`) and push `ent` on the free-list tail.
Out-of-range indices are ignored. -/
def World.drop_entity (w : World) (ent : Entity) : Option World :=
  if ent < w.entities.length then
    if ent < w.valid_ents.length then
      some { w with valid_ents := w.valid_ents.set ent false
                    free_ents := w.free_ents ++ [ent] }
    else none
  else some w

/-- `World::remove_entity`: if `ent` is within the entity table's length
(validity is not consulted), enqueue it on the dead queue; otherwise no-op. -/
def World.remove_entity (w : World) (ent : Entity) : World :=
  if ent < w.entities.length then
    { w with dead_ents := w.dead_ents ++ [ent] }
  else w

/-- `World::add_component`: when `valid_ents.get(ent) == Some(&true)`, push
`(TypeId::of::<T>(), value)` onto that slot's store and return `true`
(`self.entities[ent]` panics when out of range, modelled by `none`); in every
other case return `false` and leave the world unchanged. -/
def World.add_component (w : World) (ent : Entity) (t v : Nat) :
    Option (World × Bool) :=
  match w.valid_ents.get? ent with
  | some true =>
    match w.entities.get? ent with
    | some store =>
      some ({ w with entities := w.entities.set ent (store ++ [(t, v)]) }, true)
    | none => none
  | _ => some (w, false)

/-- `World::get_component`: when the slot is valid, the first store entry with
the requested tag (its value standing for the `&mut T`), else `None`.  The
outer `Option` models the panic of `self.entities[ent]`. -/
def World.get_component (w : World) (ent : Entity) (t : Nat) :
    Option (Option Nat) :=
  match w.valid_ents.get? ent with
  | some true =>
    match w.entities.get? ent with
    | some store => some (findComp t store)
    | none => none
  | _ => some none

/-- `World::has_component`: when the slot is valid, scan for the tag, else
`false`.  The outer `Option` models the panic of `self.entities[ent]`. -/
def World.has_component (w : World) (ent : Entity) (t : Nat) :
    Option Bool :=
  match w.valid_ents.get? ent with
  | some true =>
    match w.entities.get? ent with
    | some store => some (hasTag t store)
    | none => none
  | _ => some false

/-- `EntityEditor::add` (entities.rs): push onto the bound store. -/
def EntityEditor.add (store : Components) (t v : Nat) : Components :=
  store ++ [(t, v)]

/-- `EntityEditor::has` (entities.rs): first-match scan for the tag. -/
def EntityEditor.has (store : Components) (t : Nat) : Bool :=
  hasTag t store

/-- `EntityEditor.get` (entities.rs): the first entry with the tag. -/
def EntityEditor.get (store : Components) (t : Nat) : Option Nat :=
  findComp t store

/-- The inner loop of `World::process` at one entity: walk the registered
systems in order (`i` is the registration index of the head system); test each
system's query against the entity's *current* store and, on a match, run its
body and record `(i, ent)` in the returned trace.  `none` models a panic
(the store index must exist, as it does in every Rust execution since the
entities vector's length cannot change during a scan). -/
def stepSystems (vs : List Bool) (ent : Entity) :
    Nat → List IterSystem → List Components → List Entity →
    Option (List Components × List Entity × List (Nat × Entity))
  | _, [], es, ds => some (es, ds, [])
  | i, sys :: rest, es, ds =>
    match es.get? ent with
    | none => none
    | some store =>
      if Query.test sys.query store then
        let r := sys.run ent es vs ds
        match stepSystems vs ent (i + 1) rest r.1 r.2 with
        | none => none
        | some (es2, ds2, tr) => some (es2, ds2, (i, ent) :: tr)
      else stepSystems vs ent (i + 1) rest es ds

/-- The outer loop of `World::process`: visit the given entity indices in
order; `self.valid_ents[ent]` panics when out of bounds (`none`); invalid
slots are skipped; valid slots run every system via `stepSystems`. -/
def scanEnts (systems : List IterSystem) (vs : List Bool) :
    List Nat → List Components → List Entity →
    Option (List Components × List Entity × List (Nat × Entity))
  | [], es, ds => some (es, ds, [])
  | ent :: rents, es, ds =>
    match vs.get? ent with
    | none => none
    | some false => scanEnts systems vs rents es ds
    | some true =>
      match stepSystems vs ent 0 systems es ds with
      | none => none
      | some (es1, ds1, tr1) =>
        match scanEnts systems vs rents es1 ds1 with
        | none => none
        | some (es2, ds2, tr2) => some (es2, ds2, tr1 ++ tr2)

/-- The drain loop at the end of `World::process`: pop the dead queue front
and `drop_entity` it until the queue is empty. -/
def drainGo : List Entity → World → Option World
  | [], w => some w
  | ent :: rest, w =>
    match World.drop_entity w ent with
    | none => none
    | some w2 => drainGo rest w2

/-- End-of-tick drain: run `drop_entity` once per queued index, FIFO, leaving
the dead queue empty. -/
def drainDead (w : World) : Option World :=
  drainGo w.dead_ents { w with dead_ents := [] }

/-- `World::process`: scan every slot index of the entity table in ascending
order, dispatching matching systems, then drain the dead queue.  Returns the
new world and the trace of system invocations `(registration index, entity)`
in execution order; `none` models a panic. -/
def World.process (w : World) : Option (World × List (Nat × Entity)) :=
  match scanEnts w.iterative_systems w.valid_ents
      (List.range w.entities.length) w.entities w.dead_ents with
  | none => none
  | some (es, ds, tr) =>
    match drainDead { w with entities := es, dead_ents := ds } with
    | none => none
    | some w2 => some (w2, tr)

/-- "Writing through the `&mut` returned by `get_component`": replace the
value of the first component carrying the tag.  Used to model the bodies of
the user-supplied systems in the spec's scenarios. -/
def updateFirst (t : Nat) (f : Nat → Nat) : Components → Components
  | [] => []
  | p :: rest => if p.1 = t then (p.1, f p.2) :: rest else p :: updateFirst t f rest

/-- Scenario helper: the world after `create_entity` followed by
`add_component` of component A (tag 0, value 0) on the fresh entity. -/
def createWithA (w : World) : Option World :=
  (World.create_entity w).bind fun p =>
    (World.add_component p.1 p.2 0 0).map (fun q => q.1)

/-- Scenario system for the deferred-removal test: matches `with(A)` (tag 0)
and has a body with no effect. -/
def noopSys : IterSystem :=
  ⟨Query.mk (.cons (.is 0) .nil), fun _ es _ ds => (es, ds)⟩

/-- Deferred-removal scenario: a world of capacity 4 with the no-op system on
`with(A)`, four entities each holding A, and `remove_entity` called on the
second (index 1) before any tick. -/
def c4World : Option World :=
  (createWithA (World.register_iterative_system (World.with_capacity 4) noopSys)).bind
    fun w1 => (createWithA w1).bind fun w2 =>
    (createWithA w2).bind fun w3 =>
    (createWithA w3).map fun w4 => World.remove_entity w4 1

/-- Scenario system 1 of the ordering test: matches `with(A)` (tag 0) and
increments the numeric A component of its entity. -/
def incSys : IterSystem :=
  ⟨Query.mk (.cons (.is 0) .nil),
    fun ent es _ ds => (es.set ent (updateFirst 0 (fun v => v + 1) (es.getD ent [])), ds)⟩

/-- Scenario system 2 of the ordering test: matches `with(A)` (tag 0) and
doubles the numeric A component of its entity. -/
def dblSys : IterSystem :=
  ⟨Query.mk (.cons (.is 0) .nil),
    fun ent es _ ds => (es.set ent (updateFirst 0 (fun v => v * 2) (es.getD ent [])), ds)⟩

/-- Ordering scenario, built by the API: capacity 1, `incSys` registered
first, `dblSys` second, one entity whose A component starts at 1. -/
def c5Build : Option World :=
  (World.create_entity
      (World.register_iterative_system
        (World.register_iterative_system (World.with_capacity 1) incSys) dblSys)).bind
    fun p => (World.add_component p.1 p.2 0 1).map (fun q => q.1)

/-- The ordering scenario's start state, written out. -/
def c5Start : World :=
  { entities := [[(0, 1)]]
    valid_ents := [true]
    iterative_systems := [incSys, dblSys]
    free_ents := []
    dead_ents := [] }

/-- The ordering scenario's state after one tick: 1 was incremented to 2 by
`incSys`, then doubled to 4 by `dblSys`. -/
def c5End : World :=
  { entities := [[(0, 4)]]
    valid_ents := [true]
    iterative_systems := [incSys, dblSys]
    free_ents := []
    dead_ents := [] }

/-- Recycling scenario: capacity 1; create an entity; remove it; tick; then
create again, returning the world and the recycled entity. -/
def c1Recycled : Option (World × Entity) :=
  (World.create_entity (World.with_capacity 1)).bind fun p =>
    (World.process (World.remove_entity p.1 p.2)).bind fun q =>
      World.create_entity q.1

/-- Free-slot scenario: capacity 1; one entity holding A (tag 0); removed and
drained by one tick.  Its slot is on the free list afterwards. -/
def c7Freed : Option World :=
  (createWithA (World.with_capacity 1)).bind fun w1 =>
    (World.process (World.remove_entity w1 0)).map (fun q => q.1)

/-- Duplicate-tag store: one valid entity holding value 1 then value 2 under
the same tag 5. -/
def c8World : World :=
  { entities := [[(5, 1), (5, 2)]]
    valid_ents := [true]
    iterative_systems := []
    free_ents := []
    dead_ents := [] }

/-- Double-removal scenario: capacity 1; create one entity, call
`remove_entity` on it twice, then tick once. -/
def c9Drained : Option World :=
  ((World.create_entity (World.with_capacity 1)).map fun p =>
      World.remove_entity (World.remove_entity p.1 p.2) p.2).bind
    fun w => (World.process w).map (fun q => q.1)

theorem hasTag_iff_mem (t : Nat) :
    ∀ s : Components, hasTag t s = true ↔ ∃ p ∈ s, p.1 = t
  | [] => by simp [hasTag]
  | p :: rest => by
    by_cases h : p.1 = t
    · simp [hasTag, h]
    · simp [hasTag, h, hasTag_iff_mem t rest]

theorem noTag_iff_forall (t : Nat) :
    ∀ s : Components, noTag t s = true ↔ ∀ p ∈ s, p.1 ≠ t
  | [] => by simp [noTag]
  | p :: rest => by
    by_cases h : p.1 = t
    · simp [noTag, h]
    · simp [noTag, h, noTag_iff_forall t rest]

theorem testAll_iff_forall :
    ∀ (cs : CondList) (s : Components),
      CondList.testAll cs s = true ↔ ∀ c ∈ cs.toList, Cond.test c s = true
  | .nil, s => by simp [CondList.testAll, CondList.toList]
  | .cons c cs, s => by
    by_cases h : Cond.test c s
    · simp [CondList.testAll, CondList.toList, h, testAll_iff_forall cs s]
    · simp [CondList.testAll, CondList.toList, h]

theorem stepSystems_trace (vs : List Bool) (ent : Entity) :
    ∀ (systems : List IterSystem) (i : Nat) (es : List Components)
      (ds : List Entity) (out : List Components × List Entity × List (Nat × Entity)),
      stepSystems vs ent i systems es ds = some out →
      (∀ p ∈ out.2.2, p.2 = ent ∧ i ≤ p.1)
      ∧ out.2.2.Pairwise (fun a b => a.1 < b.1) := by
  intro systems
  induction systems with
  | nil =>
    intro i es ds out h
    simp only [stepSystems, Option.some.injEq] at h
    subst h
    simp
  | cons sys rest ih =>
    intro i es ds out h
    simp only [stepSystems] at h
    split at h
    · exact absurd h (by simp)
    · split at h
      · split at h
        · exact absurd h (by simp)
        · rename_i es2 ds2 tr hstep
          simp only [Option.some.injEq] at h
          subst h
          obtain ⟨hmem, hpair⟩ := ih (i + 1) _ _ _ hstep
          refine ⟨?_, ?_⟩
          · intro p hp
            rcases List.mem_cons.mp hp with hhd | htl
            · subst hhd; exact ⟨rfl, Nat.le_refl i⟩
            · obtain ⟨h1, h2⟩ := hmem p htl
              exact ⟨h1, by omega⟩
          · refine List.Pairwise.cons ?_ hpair
            intro b hb
            have := (hmem b hb).2
            omega
      · obtain ⟨hmem, hpair⟩ := ih (i + 1) _ _ _ h
        refine ⟨?_, hpair⟩
        intro p hp
        obtain ⟨h1, h2⟩ := hmem p hp
        exact ⟨h1, by omega⟩

theorem scanEnts_trace_mem (systems : List IterSystem) (vs : List Bool) :
    ∀ (ents : List Nat) (es : List Components) (ds : List Entity)
      (out : List Components × List Entity × List (Nat × Entity)),
      scanEnts systems vs ents es ds = some out →
      ∀ p ∈ out.2.2, p.2 ∈ ents := by
  intro ents
  induction ents with
  | nil =>
    intro es ds out h
    simp only [scanEnts, Option.some.injEq] at h
    subst h
    simp
  | cons ent rents ih =>
    intro es ds out h
    simp only [scanEnts] at h
    split at h
    · exact absurd h (by simp)
    · intro p hp
      exact List.mem_cons_of_mem ent (ih _ _ _ h p hp)
    · split at h
      · exact absurd h (by simp)
      · rename_i es1 ds1 tr1 hstep
        split at h
        · exact absurd h (by simp)
        · rename_i es2 ds2 tr2 hscan
          simp only [Option.some.injEq] at h
          subst h
          intro p hp
          rcases List.mem_append.mp hp with h1 | h2
          · have := (stepSystems_trace vs ent systems 0 es ds _ hstep).1 p h1
            simp [this.1]
          · exact List.mem_cons_of_mem ent (ih _ _ _ hscan p h2)

theorem scanEnts_trace_pairwise (systems : List IterSystem) (vs : List Bool) :
    ∀ (ents : List Nat) (es : List Components) (ds : List Entity)
      (out : List Components × List Entity × List (Nat × Entity)),
      scanEnts systems vs ents es ds = some out →
      ents.Pairwise (fun a b => a ≠ b) →
      out.2.2.Pairwise (fun a b => a.2 = b.2 → a.1 < b.1) := by
  intro ents
  induction ents with
  | nil =>
    intro es ds out h _
    simp only [scanEnts, Option.some.injEq] at h
    subst h
    simp
  | cons ent rents ih =>
    intro es ds out h hnd
    simp only [scanEnts] at h
    split at h
    · exact absurd h (by simp)
    · exact ih _ _ _ h (List.Pairwise.sublist (List.sublist_cons_self ent rents) hnd)
    · split at h
      · exact absurd h (by simp)
      · rename_i es1 ds1 tr1 hstep
        split at h
        · exact absurd h (by simp)
        · rename_i es2 ds2 tr2 hscan
          simp only [Option.some.injEq] at h
          subst h
          have hstep2 := stepSystems_trace vs ent systems 0 es ds _ hstep
          rw [List.pairwise_append]
          refine ⟨?_, ?_, ?_⟩
          · have hp1 : List.Pairwise (fun a b : Nat × Entity => a.1 < b.1) tr1 :=
              hstep2.2
            refine List.Pairwise.imp ?_ hp1
            intro a b hlt
            exact fun _ => hlt
          · exact ih _ _ _ hscan (List.Pairwise.sublist (List.sublist_cons_self ent rents) hnd)
          · intro a ha b hb heq
            have ha2 : a.2 = ent := (hstep2.1 a ha).1
            have hb2 : b.2 ∈ rents := scanEnts_trace_mem systems vs rents es1 ds1 _ hscan b hb
            have hne : ent ≠ b.2 := (List.pairwise_cons.mp hnd).1 b.2 hb2
            exact absurd (ha2 ▸ heq) hne

theorem process_trace_ordered (w w2 : World) (tr : List (Nat × Entity)) :
    World.process w = some (w2, tr) →
    tr.Pairwise (fun a b => a.2 = b.2 → a.1 < b.1) := by
  intro h
  simp only [World.process] at h
  split at h
  · exact absurd h (by simp)
  · rename_i es ds tr0 hscan
    split at h
    · exact absurd h (by simp)
    · simp only [Option.some.injEq, Prod.mk.injEq] at h
      obtain ⟨-, h2⟩ := h
      subst h2
      exact scanEnts_trace_pairwise _ _ _ _ _ _ hscan (List.nodup_range _)

/-- C1: the claim says `create_entity` popping the free list marks the slot
valid and the entity present thereafter.  The code instead executes
`self.valid_ents[ent] = false` on the reused slot: in the recycling scenario
the second `create_entity` does pop index 0 off the free list and truncate its
store, but returns it with `valid_ents = [false]`, so `add_component` returns
`false`, and `has_component`/`get_component` report it absent. -/
theorem C1_recycled_slot_invalid :
    (c1Recycled.map fun p => (p.2, p.1.valid_ents, p.1.entities, p.1.free_ents)) =
      some (0, [false], [[]], [])
  ∧ (c1Recycled.bind fun p => (World.add_component p.1 p.2 0 0).map (fun q => q.2)) =
      some false
  ∧ (c1Recycled.bind fun p => World.has_component p.1 p.2 0) = some false
  ∧ (c1Recycled.bind fun p => World.get_component p.1 p.2 0) = some none := by
  refine ⟨rfl, rfl, rfl, rfl⟩

/-- C2: the claim says the initial capacity is only a hint and creating more
than `n` entities never panics.  The code keeps `valid_ents` at its fixed
initial length `capacity` and indexes it at the new entity's index, so the
`capacity + 1`-st creation panics (modelled by `none`): with capacity 0 the
very first `create_entity` panics, and with capacity 1 the first succeeds and
the second panics. -/
theorem C2_capacity_overflow_panics :
    World.create_entity (World.with_capacity 0) = none
  ∧ ((World.create_entity (World.with_capacity 1)).map fun p => p.2) = some 0
  ∧ ((World.create_entity (World.with_capacity 1)).bind fun p => World.create_entity p.1) =
      none := by
  refine ⟨rfl, rfl, rfl⟩

/-- C3: query evaluation is truth-functional — `Any` is always true, `Is`
holds iff some store entry carries the tag, `IsNot` iff none does, `And`/`Or`/
`Not` are the boolean connectives, a built `Query` is the conjunction of its
condition list — and the spec's truth table over stores S1={A}, S2={A,B},
S3={A,B,C}, S4={} (tags A=0, B=1, C=2) comes out as claimed. -/
theorem C3_query_truth_functional :
    (∀ s : Components, Cond.test .any s = true)
  ∧ (∀ (t : Nat) (s : Components), Cond.test (.is t) s = true ↔ ∃ p ∈ s, p.1 = t)
  ∧ (∀ (t : Nat) (s : Components), Cond.test (.isNot t) s = true ↔ ∀ p ∈ s, p.1 ≠ t)
  ∧ (∀ (l r : Cond) (s : Components),
      Cond.test (.and l r) s = (Cond.test l s && Cond.test r s))
  ∧ (∀ (l r : Cond) (s : Components),
      Cond.test (.or l r) s = (Cond.test l s || Cond.test r s))
  ∧ (∀ (c : Cond) (s : Components), Cond.test (.not c) s = !(Cond.test c s))
  ∧ (∀ (cs : CondList) (s : Components),
      Query.test (.mk cs) s = true ↔ ∀ c ∈ cs.toList, Cond.test c s = true)
  ∧ ([[(0, 0)], [(0, 0), (1, 0)], [(0, 0), (1, 0), (2, 0)], []].map
      (Query.test ((Matchers.withC 0).withC 1).build) = [false, true, true, false])
  ∧ ([[(0, 0)], [(0, 0), (1, 0)], [(0, 0), (1, 0), (2, 0)], []].map
      (Query.test (Matchers.without 2).build) = [true, true, false, true])
  ∧ ([[(0, 0)], [(0, 0), (1, 0)], [(0, 0), (1, 0), (2, 0)], []].map
      (Query.test ((Matchers.withC 0).without 1).build) = [true, false, false, false])
  ∧ ([[(0, 0)], [(0, 0), (1, 0)], [(0, 0), (1, 0), (2, 0)], []].map
      (Query.test ((Matchers.withC 0).or (Matchers.withC 1).toCond).build) =
        [true, true, true, false])
  ∧ ([[(0, 0)], [(0, 0), (1, 0)], [(0, 0), (1, 0), (2, 0)], []].map
      (Query.test ((Matchers.without 0).and_not (Matchers.withC 1).toCond).build) =
        [false, false, false, true]) := by
  refine ⟨fun s => rfl, ?_, ?_, fun l r s => rfl, fun l r s => rfl, fun c s => rfl,
    ?_, by decide, by decide, by decide, by decide, by decide⟩
  · intro t s
    exact hasTag_iff_mem t s
  · intro t s
    exact noTag_iff_forall t s
  · intro cs s
    exact testAll_iff_forall cs s

/-- C4: removal is deferred to end of tick.  `remove_entity` on an in-range
index only appends it to the dead queue, leaving everything else (in
particular the validity flag) unchanged; in the 4-entity scenario on
`with(A)`, the tick after removing entity 1 still invokes the system on all
four entities (trace `[(0,0),(0,1),(0,2),(0,3)]`), and the next tick on only
the remaining three. -/
theorem C4_deferred_removal :
    (∀ (w : World) (ent : Entity),
      World.remove_entity w ent =
        if ent < w.entities.length then { w with dead_ents := w.dead_ents ++ [ent] }
        else w)
  ∧ ((c4World.bind World.process).map fun p => p.2) =
      some [(0, 0), (0, 1), (0, 2), (0, 3)]
  ∧ ((((c4World.bind World.process).map fun p => p.1).bind World.process).map
      fun p => p.2) = some [(0, 0), (0, 2), (0, 3)] := by
  refine ⟨fun w ent => rfl, by decide, by decide⟩

/-- C5: within one `process()` call, execution is sequential in registration
order per entity — in any successful tick's invocation trace, two invocations
on the same entity occur in increasing registration-index order — and in the
increment-then-double scenario (start value 1, `incSys` registered before
`dblSys`) one tick produces the value 4 with trace `[(0,0),(1,0)]`. -/
theorem C5_registration_order :
    (∀ (w w2 : World) (tr : List (Nat × Entity)),
      World.process w = some (w2, tr) →
      tr.Pairwise (fun a b => a.2 = b.2 → a.1 < b.1))
  ∧ c5Build = some c5Start
  ∧ World.process c5Start = some (c5End, [(0, 0), (1, 0)]) :=
  ⟨process_trace_ordered, rfl, rfl⟩

/-- Witness for C5: the ordering theorem applied to the concrete
increment/double tick, whose hypothesis is discharged by evaluation. -/
theorem C5_registration_order_witness :
    List.Pairwise (fun a b : Nat × Entity => a.2 = b.2 → a.1 < b.1)
      [(0, 0), (1, 0)] :=
  C5_registration_order.1 c5Start c5End [(0, 0), (1, 0)] C5_registration_order.2.2

/-- C6: misuse returns explicit absent results without panicking: whenever the
validity check `valid_ents.get(ent) == Some(&true)` fails, `get_component`
returns `None`, `has_component` returns `false`, and `add_component` returns
`false` leaving the world unchanged (each without panicking, hence the outer
`some`); an index out of the table's range fails that check in any state where
valid flags only mark in-range slots; and `remove_entity` on an out-of-range
index is a no-op. -/
theorem C6_misuse_absent :
    (∀ (w : World) (ent : Entity) (t v : Nat),
      w.valid_ents.get? ent ≠ some true →
      World.get_component w ent t = some none
      ∧ World.has_component w ent t = some false
      ∧ World.add_component w ent t v = some (w, false))
  ∧ (∀ (w : World) (ent : Entity),
      (∀ i, w.valid_ents.get? i = some true → i < w.entities.length) →
      w.entities.length ≤ ent → w.valid_ents.get? ent ≠ some true)
  ∧ (∀ (w : World) (ent : Entity),
      w.entities.length ≤ ent → World.remove_entity w ent = w) := by
  refine ⟨?_, ?_, ?_⟩
  · intro w ent t v h
    rcases hv : w.valid_ents.get? ent with _ | b
    · rw [List.get?_eq_getElem?] at hv
      exact ⟨by simp [World.get_component, hv], by simp [World.has_component, hv],
        by simp [World.add_component, hv]⟩
    · cases b
      · rw [List.get?_eq_getElem?] at hv
        exact ⟨by simp [World.get_component, hv], by simp [World.has_component, hv],
          by simp [World.add_component, hv]⟩
      · exact absurd hv h
  · intro w ent hwf hlen hv
    have := hwf ent hv
    omega
  · intro w ent h
    simp [World.remove_entity, Nat.not_lt.mpr h]

/-- Witness for C6: an empty world of capacity 1 misused at index 5. -/
theorem C6_misuse_absent_witness :
    World.get_component (World.with_capacity 1) 5 0 = some none
  ∧ World.has_component (World.with_capacity 1) 5 0 = some false
  ∧ World.add_component (World.with_capacity 1) 5 0 0 =
      some (World.with_capacity 1, false)
  ∧ World.remove_entity (World.with_capacity 1) 5 = World.with_capacity 1 :=
  ⟨(C6_misuse_absent.1 (World.with_capacity 1) 5 0 0 (by decide)).1,
   (C6_misuse_absent.1 (World.with_capacity 1) 5 0 0 (by decide)).2.1,
   (C6_misuse_absent.1 (World.with_capacity 1) 5 0 0 (by decide)).2.2,
   C6_misuse_absent.2.2 (World.with_capacity 1) 5 (by decide)⟩

/-- Counterexample to C7 as stated: after removing and draining the one
entity (which held component A), its index 0 is on the free list with
`valid = false`, yet its component store still has length 1, not the claimed
length zero. -/
theorem C7_free_store_not_truncated :
    (c7Freed.map fun w => (w.free_ents, w.valid_ents)) = some ([0], [false])
  ∧ (c7Freed.map fun w => (w.entities.getD 0 []).length) ≠ some 0 := by
  refine ⟨by decide, by decide⟩

/-- C7 (amended): immediately after the drain runs `drop_entity` on an index,
that slot is on the free-list tail with `valid = false` and its component
values destroyed, but its component store keeps its entries; the store is
truncated to length zero only when `create_entity` later reuses the slot.
Shown in general for `drop_entity` and on the concrete drained world. -/
theorem C7_drop_keeps_store :
    (∀ (w : World) (ent : Entity),
      ent < w.entities.length → ent < w.valid_ents.length →
      World.drop_entity w ent =
        some { w with valid_ents := w.valid_ents.set ent false
                      free_ents := w.free_ents ++ [ent] })
  ∧ (c7Freed.map fun w => (w.free_ents, w.valid_ents, w.entities)) =
      some ([0], [false], [[(0, 0)]])
  ∧ ((c7Freed.bind World.create_entity).map fun p => (p.2, p.1.entities)) =
      some (0, [[]]) := by
  refine ⟨?_, by decide, by decide⟩
  intro w ent h1 h2
  simp [World.drop_entity, h1, h2]

/-- Witness for C7's amended theorem: dropping the one valid slot of a
concrete world keeps its two components in the store. -/
theorem C7_drop_keeps_store_witness :
    World.drop_entity c8World 0 =
      some { entities := [[(5, 1), (5, 2)]]
             valid_ents := [false]
             iterative_systems := []
             free_ents := [0]
             dead_ents := [] } :=
  C7_drop_keeps_store.1 c8World 0 (by decide) (by decide)

/-- C8: per-entity storage is insertion-ordered and not deduplicated —
`add_component` and `EntityEditor::add` always append, lookups return the
first match in insertion order; a store holding value 1 then value 2 under
the same tag 5 yields 1 from both `World::get_component` and
`EntityEditor::get`. -/
theorem C8_insertion_order :
    (∀ (w : World) (ent : Entity) (t v : Nat) (store : Components),
      w.valid_ents.get? ent = some true → w.entities.get? ent = some store →
      World.add_component w ent t v =
        some ({ w with entities := w.entities.set ent (store ++ [(t, v)]) }, true))
  ∧ (∀ (store : Components) (t v : Nat), EntityEditor.add store t v = store ++ [(t, v)])
  ∧ (∀ (t v : Nat) (l1 l2 : Components), (∀ p ∈ l1, p.1 ≠ t) →
      findComp t (l1 ++ (t, v) :: l2) = some v)
  ∧ World.get_component c8World 0 5 = some (some 1)
  ∧ EntityEditor.get [(5, 1), (5, 2)] 5 = some 1
  ∧ World.has_component c8World 0 5 = some true := by
  refine ⟨?_, fun store t v => rfl, ?_, by decide, by decide, by decide⟩
  · intro w ent t v store hv hs
    rw [List.get?_eq_getElem?] at hv hs
    simp [World.add_component, hv, hs]
  · intro t v l1
    induction l1 with
    | nil => intro l2 h; simp [findComp]
    | cons p l1 ih =>
      intro l2 h
      have hp : p.1 ≠ t := h p (List.mem_cons_self p l1)
      simpa [findComp, hp] using ih l2 (fun q hq => h q (List.mem_cons_of_mem p hq))

/-- Witness for C8: appending a fresh tag to the duplicate-tag world and the
first-match lemma on a singleton prefix-free list. -/
theorem C8_insertion_order_witness :
    World.add_component c8World 0 7 9 =
      some ({ entities := [[(5, 1), (5, 2), (7, 9)]]
              valid_ents := [true]
              iterative_systems := []
              free_ents := []
              dead_ents := [] }, true)
  ∧ findComp 5 ([(3, 0)] ++ (5, 4) :: []) = some 4 :=
  ⟨C8_insertion_order.1 c8World 0 7 9 [(5, 1), (5, 2)] (by decide) (by decide),
   C8_insertion_order.2.2.1 5 4 [(3, 0)] [] (by decide)⟩

/-- C9: `remove_entity` checks only that the index is within the table's
length and the drain appends to the free list once per queue entry, so
removing the same live entity twice and ticking once puts its index on the
free list twice, after which two consecutive `create_entity` calls both
return entity 0. -/
theorem C9_double_free :
    (∀ (w : World) (ent : Entity),
      World.remove_entity w ent =
        if ent < w.entities.length then { w with dead_ents := w.dead_ents ++ [ent] }
        else w)
  ∧ (c9Drained.map fun w => (w.free_ents, w.valid_ents, w.dead_ents)) =
      some ([0, 0], [false], [])
  ∧ ((c9Drained.bind World.create_entity).map fun p => p.2) = some 0
  ∧ (((c9Drained.bind World.create_entity).map fun p => p.1).bind
      World.create_entity).map (fun p => p.2) = some 0 := by
  refine ⟨fun w ent => rfl, by decide, by decide, by decide⟩

/-- C10: a `Query` built from an empty builder tests true on every store (the
empty conjunction), so `Matchers::and(c)` is equivalent to `c` alone and
`Matchers::or(c)` matches every store. -/
theorem C10_empty_query_true :
    (∀ s : Components, Query.test QueryBuilder.new.build s = true)
  ∧ (∀ (c : Cond) (s : Components),
      Query.test (Matchers.and c).build s = Cond.test c s)
  ∧ (∀ (c : Cond) (s : Components), Query.test (Matchers.or c).build s = true) := by
  refine ⟨fun s => rfl, ?_, fun c s => rfl⟩
  intro c s
  cases h : Cond.test c s <;>
    simp [Matchers.and, QueryBuilder.and, QueryBuilder.new, QueryBuilder.build,
      Query.test, CondList.testAll, Cond.test, h]
